import Mathlib

/-!
Shallow embedding of the FTQ (Fixed Time Quantum) microbenchmark driver
(`ftq.c` together with its header).  The embedding models:

* command-line option handling (`getopt` switch in `main`, lines 98-133),
  including the C `atoi` and `sscanf("%lg")` conversions it relies on;
* the sanity cap on the sample count and the sample-buffer allocation
  (lines 136-153);
* the control flow of `main` after parsing, as a trace of events
  (allocation, the stdout/threads check, calibration, thread creation,
  the `hounds` start signal, joins, timestamp recording, reporting);
* the reporting loops that turn raw (cycle, count) pairs into output
  lines (lines 223-248).

C machine integers are modelled as `Nat`/`Int` with explicit `% 2 ^ 64`
where unsigned wraparound matters; C `double`/`float` values are modelled
as `ℚ` (the claims settled here depend only on which quantities enter a
formula, never on floating-point rounding).  Fallible computations are
modelled with `Option` or explicit error values.
-/

/-- Hard maximum on the per-thread sample count (`MAX_SAMPLES` in the header). -/
def MAX_SAMPLES : Nat := 2000000

/-- Default per-thread sample count (`DEFAULT_COUNT` in the header); the
global `numsamples` is declared in the header and defined in the sampling-core
translation unit, which is not part of the sources; its default is modelled
from the spec ("sample count (default and hard maximum enforced before
allocation)") and the header macro. -/
def DEFAULT_COUNT : Nat := 524288

/-- Default quantum length in nanoseconds (`DEFAULT_INTERVAL` in the header). -/
def DEFAULT_INTERVAL : Nat := 100000

/-- Accumulate a run of decimal digits, stopping at the first non-digit,
as C `atoi`/`strtol` do after the sign. -/
def atoiDigits : List Char → Nat → Nat
  | [], acc => acc
  | c :: cs, acc =>
      if c.isDigit then atoiDigits cs (acc * 10 + (c.toNat - 48)) else acc

/-- C `atoi`: skip leading whitespace, optional sign, then a run of digits;
a string with no leading digits yields 0.  (Overflow is undefined behaviour
in C and is not modelled; every claim uses small values.) -/
def atoi (s : String) : Int :=
  match s.data.dropWhile Char.isWhitespace with
  | '-' :: cs => - (atoiDigits cs 0 : Int)
  | '+' :: cs => (atoiDigits cs 0 : Int)
  | cs => (atoiDigits cs 0 : Int)

/-- C `sscanf(optarg, "%lg", &x)` used for the `-T` option: optional sign,
digits, optional fractional part.  `none` models a failed conversion, in
which case `sscanf` leaves the variable unchanged. -/
def sscanfLg (s : String) : Option ℚ :=
  let cs := s.data.dropWhile Char.isWhitespace
  let p : Bool × List Char :=
    match cs with
    | '-' :: r => (true, r)
    | '+' :: r => (false, r)
    | r => (false, r)
  let ip := p.2.takeWhile Char.isDigit
  let rest := p.2.dropWhile Char.isDigit
  let fp : List Char :=
    match rest with
    | '.' :: r => r.takeWhile Char.isDigit
    | _ => []
  if ip = [] ∧ fp = [] then none
  else
    let v : ℚ :=
      if fp = [] then (atoiDigits ip 0 : ℚ)
      else (atoiDigits ip 0 * 10 ^ fp.length + atoiDigits fp 0 : ℚ) / ((10 : ℚ) ^ fp.length)
    some (if p.1 then -v else v)

/-- Conversion of a C `int` value to `unsigned long` (64-bit), as in
`numsamples = atoi(optarg)`: reduction modulo `2 ^ 64`. -/
def toULong (k : Int) : Nat := (k % (2 ^ 64 : Int)).toNat

/-- Subtraction of two `unsigned long long` values (wraparound modulo
`2 ^ 64`), as in `samples[i * 2] - base`. -/
def ullSub (a b : Nat) : Nat := (a % 2 ^ 64 + (2 ^ 64 - b % 2 ^ 64)) % 2 ^ 64

/-- Cast of a floating value to the integer `ticks` type, truncating toward
zero, as in `(ticks)(nspercycle * (samples[i * 2] - base))`. -/
def castToTicks (q : ℚ) : Int := q.num.tdiv (q.den : Int)

/-- Result of the `-f` branch `interval = (unsigned long long)(1e9 / atoi(optarg))`.
`divZero` marks the erroneous computation when the parsed frequency is 0
(zero divisor, unguarded in the source); `castNegUB` marks the undefined
cast of a negative quotient to an unsigned type. -/
inductive IntervalVal where
  | ok (n : Nat)
  | divZero
  | castNegUB
  deriving DecidableEq, Repr

/-- The `-f` branch of the option switch (lines 109-113): the source divides
`1e9` by the parsed frequency with no validation whatsoever; a zero divisor
is the erroneous `divZero` outcome. -/
def intervalOfFreq (k : Int) : IntervalVal :=
  if k = 0 then .divZero
  else if k < 0 then .castNegUB
  else .ok (10 ^ 9 / k.toNat)

/-- Process-wide configuration state after option parsing: the globals from
the header (`interval`, `numsamples`, `ticksperns`, `ignore_wire_failures`,
`set_realtime`, `test_argument`) and the locals of `main` (`numthreads`,
`use_threads`, `use_stdout`, `outname`).  Defaults for the globals defined
in the sampling-core translation unit (absent from the sources) are modelled
from the spec and the header macros: `numsamples = DEFAULT_COUNT`,
`interval = DEFAULT_INTERVAL`, `ticksperns = 0.0`. -/
structure Config where
  numthreads : Int := 1
  use_threads : Bool := false
  use_stdout : Bool := false
  outname : String := "ftq"
  interval : IntervalVal := .ok DEFAULT_INTERVAL
  numsamples : Nat := DEFAULT_COUNT
  ignore_wire_failures : Nat := 0
  set_realtime : Bool := false
  ticksperns : ℚ := 0
  test_argument : Option String := none
  deriving DecidableEq, Repr

/-- Configuration before any command-line option is applied. -/
def defaultConfig : Config := {}

/-- One parsed command-line option, one constructor per `case` of the
option switch in `main`. -/
inductive Opt where
  | t (s : String)
  | s
  | o (s : String)
  | f (s : String)
  | n (s : String)
  | w
  | T (s : String)
  | r
  | a (s : String)
  | h
  deriving DecidableEq, Repr

/-- Effect of one option on the configuration, following the `switch` in
`main` case by case; `-h` (and unknown options) call `usage`, which exits:
modelled as `none`. -/
def applyOpt (c : Config) : Opt → Option Config
  | .t s => some { c with numthreads := atoi s, use_threads := true }
  | .s => some { c with use_stdout := true }
  | .o s => some { c with outname := s }
  | .f s => some { c with interval := intervalOfFreq (atoi s) }
  | .n s => some { c with numsamples := toULong (atoi s) }
  | .w => some { c with ignore_wire_failures := c.ignore_wire_failures + 1 }
  | .T s =>
      match sscanfLg s with
      | some v => some { c with ticksperns := v }
      | none => some c
  | .r => some { c with set_realtime := true }
  | .a s => some { c with test_argument := some s }
  | .h => none

/-- Parse a command line: fold the options over the default configuration. -/
def parseOpts (os : List Opt) : Option Config :=
  os.foldlM applyOpt defaultConfig

/-- Parse a command line that contains no `-h` (total version). -/
def parseOptsD (os : List Opt) : Config := (parseOpts os).getD defaultConfig

/-- Sanity cap applied by `main` (lines 136-141): a requested count above
`MAX_SAMPLES` is reset to `MAX_SAMPLES`. -/
def capSamples (n : Nat) : Nat := if n > MAX_SAMPLES then MAX_SAMPLES else n

/-- Size of the sample buffer allocation (line 143):
`sizeof(unsigned long long) * numsamples * 2 * numthreads` in `size_t`
arithmetic, computed from the capped sample count. -/
def allocSize (c : Config) : Nat :=
  8 * capSamples c.numsamples * 2 * toULong c.numthreads % 2 ^ 64

/-- Observable events of `main` after option parsing, in program order:
buffer allocation (`mmap`, fallback `malloc`, the `assert` abort, `memset`),
the stdout/threads compatibility check, calibration, thread initialisation,
the `start = nsec(); cyclestart = getticks()` pair, thread creation and the
corresponding fatal exit, the `hounds = 1` start-signal write, joins and the
corresponding fatal exit, the `cycleend = getticks(); end = nsec()` pair,
the direct `ftq_core(0)` call of the sequential path, and reporting. -/
inductive Ev where
  | allocMmap
  | allocMalloc
  | abortAlloc
  | memsetBuf
  | fatalStdout
  | computeTpn
  | threadInit
  | abortThreadInit
  | allocThreadArray
  | recordStart
  | createThread (i : Nat)
  | abortCreate
  | setHounds
  | joinThread (i : Nat)
  | abortJoin
  | recordEnd
  | callCore
  | reportOut
  deriving DecidableEq, Repr

/-- Outcomes of the environment (operating system and pthread library)
that `main` branches on, plus the value the calibration routine would
return.  The sources do not contain the OS layer, so these are the
inputs `main` consumes from it. -/
structure Env where
  mmapFails : Bool
  mallocFails : Bool
  threadInitFails : Bool
  createFails : Nat → Bool
  joinFails : Nat → Bool
  computedTpn : ℚ

/-- One `for (i = 0; i < numthreads; i++)` loop whose body may exit the
process: `mk i` is the attempted call for index `i`, `ab` the fatal-exit
event when it fails, `rest` the continuation after a completed loop. -/
def loopSeq (mk : Nat → Ev) (fails : Nat → Bool) (ab : Ev) (rest : List Ev) :
    Nat → Nat → List Ev
  | _, 0 => rest
  | i, n + 1 =>
      if fails i then [mk i, ab]
      else mk i :: loopSeq mk fails ab rest (i + 1) n

/-- Allocation events in a run that survives allocation (lines 142-153):
`mmap`, on failure the `malloc` fallback, then the unconditional `memset`. -/
def allocSeg (e : Env) : List Ev :=
  if e.mmapFails then [Ev.allocMmap, Ev.allocMalloc, Ev.memsetBuf]
  else [Ev.allocMmap, Ev.memsetBuf]

/-- Calibration events (lines 161-162): `compute_ticksperns()` runs exactly
when `ticksperns == 0.0` after parsing. -/
def tpnSeg (c : Config) : List Ev :=
  if c.ticksperns = 0 then [Ev.computeTpn] else []

/-- Measurement-phase events (lines 168-207): the threaded branch when
`use_threads` is set, otherwise the sequential branch.  Reporting follows a
completed measurement phase. -/
def measureSeq (c : Config) (e : Env) : List Ev :=
  if c.use_threads then
    Ev.threadInit ::
      (if e.threadInitFails then [Ev.abortThreadInit]
       else
         Ev.allocThreadArray :: Ev.recordStart ::
           loopSeq Ev.createThread e.createFails Ev.abortCreate
             (Ev.setHounds ::
               loopSeq Ev.joinThread e.joinFails Ev.abortJoin
                 [Ev.recordEnd, Ev.reportOut] 0 c.numthreads.toNat)
             0 c.numthreads.toNat)
  else [Ev.setHounds, Ev.recordStart, Ev.callCore, Ev.recordEnd, Ev.reportOut]

/-- Event trace of `main` after option parsing: allocation (aborting inside
it when both `mmap` and the `malloc` fallback fail), the stdout/threads
check, calibration, then the measurement phase. -/
def mainTrace (c : Config) (e : Env) : List Ev :=
  if e.mmapFails ∧ e.mallocFails then [Ev.allocMmap, Ev.allocMalloc, Ev.abortAlloc]
  else
    allocSeg e ++
      (if c.use_stdout = true ∧ 1 < c.numthreads then [Ev.fatalStdout]
       else tpnSeg c ++ measureSeq c e)

/-- Value of `ticksperns` for the rest of the run (line 161-162): the
calibrated value when the parsed value is 0.0, the parsed value otherwise. -/
def finalTpn (c : Config) (e : Env) : ℚ :=
  if c.ticksperns = 0 then e.computedTpn else c.ticksperns

/-- Initial value of the global start signal `hounds`: declared
`volatile int hounds` in the header and defined in the sampling-core
translation unit, which is absent from the sources.  Modelled from the spec
("initialized false at process start") and C zero-initialisation of globals. -/
def houndsInit : Bool := false

/-- Values written to the global start signal `hounds` along a trace.  The
only write in `main` is `hounds = 1`; the sampling core is absent from the
sources and, modelled from the spec, only spin-reads the signal and never
writes it. -/
def writesHounds (tr : List Ev) : List Bool :=
  tr.filterMap fun ev => match ev with
    | Ev.setHounds => some true
    | _ => none

/-- Whether the first occurrence of `a` lies strictly before the first
occurrence of `b` in the trace. -/
def beforeB (tr : List Ev) (a b : Ev) : Bool :=
  match tr.findIdx? (· == a), tr.findIdx? (· == b) with
  | some i, some j => decide (i < j)
  | _, _ => false

/-- Global timestamps of a run: `start`/`endT` from the nanosecond clock
`nsec()`, `cyclestart`/`cycleend` from the cycle counter `getticks()`. -/
structure RunTimes where
  start : Int
  endT : Int
  cyclestart : Int
  cycleend : Int

/-- Conversion factor used by the reporting stage (line 218):
`nspercycle = (1.0 * ns) / cycles` with `ns = end - start` and
`cycles = cycleend - cyclestart`. -/
def nspercycle (r : RunTimes) : ℚ :=
  ((r.endT - r.start : Int) : ℚ) / ((r.cycleend - r.cyclestart : Int) : ℚ)

/-- Output lines for thread `j` in the per-file reporting loop
(lines 240-245): `base = samples[numsamples * j * 2]`, and line `i` is
`(ticks)(nspercycle * (samples[j * numsamples * 2 + i * 2] - base))`
followed by `samples[j * numsamples * 2 + i * 2 + 1]`. -/
def reportLines (npc : ℚ) (samples : Nat → Nat) (numsamples j : Nat) :
    List (Int × Nat) :=
  (List.range numsamples).map fun i =>
    (castToTicks (npc * (ullSub (samples (j * numsamples * 2 + i * 2))
        (samples (numsamples * j * 2)) : ℚ)),
     samples (j * numsamples * 2 + i * 2 + 1))

/-- Output lines of the stdout reporting loop (lines 225-229):
`base = samples[0]`, line `i` is `(ticks)(nspercycle * (samples[i * 2] - base))`
followed by `samples[i * 2 + 1]`. -/
def reportStdoutLines (npc : ℚ) (samples : Nat → Nat) (numsamples : Nat) :
    List (Int × Nat) :=
  (List.range numsamples).map fun i =>
    (castToTicks (npc * (ullSub (samples (i * 2)) (samples 0) : ℚ)),
     samples (i * 2 + 1))

/-- Modelled from the spec: the reporter line format the spec describes,
"nanoseconds elapsed since the first sample of that thread (computed as
`(timestamp - first_timestamp) * nanoseconds_per_tick`)" with
`nanoseconds_per_tick` derived from the process-wide calibration factor
`ticksperns` (ticks per nanosecond, so nanoseconds per tick is its
reciprocal). -/
def reportLinesSpecTpn (tpn : ℚ) (samples : Nat → Nat) (numsamples j : Nat) :
    List (Int × Nat) :=
  (List.range numsamples).map fun i =>
    (castToTicks ((1 / tpn) * (ullSub (samples (j * numsamples * 2 + i * 2))
        (samples (numsamples * j * 2)) : ℚ)),
     samples (j * numsamples * 2 + i * 2 + 1))

/-- Environment in which every OS and pthread call succeeds. -/
def env0 : Env := ⟨false, false, false, fun _ => false, fun _ => false, 1⟩

/-- Environment in which `mmap` fails and the `malloc` fallback succeeds. -/
def envMmapFail : Env := ⟨true, false, false, fun _ => false, fun _ => false, 1⟩

/-- Concrete sample buffer for one thread and two samples:
timestamps 0 and 40 cycles, work-counts 3 and 7. -/
def samples0 : Nat → Nat
  | 0 => 0
  | 1 => 3
  | 2 => 40
  | 3 => 7
  | _ => 0

/-- Concrete global run timestamps: 1000 ns and 100 cycles elapsed, so the
reporting stage computes `nspercycle = 10`. -/
def times0 : RunTimes := ⟨0, 1000, 0, 100⟩

theorem loopSeq_ok (mk : Nat → Ev) (fails : Nat → Bool) (ab : Ev) (rest : List Ev) :
    ∀ (n i : Nat), (∀ j, j < n → fails (i + j) = false) →
      loopSeq mk fails ab rest i n = ((List.range n).map fun j => mk (i + j)) ++ rest := by
  intro n
  induction n with
  | zero => intro i _; simp [loopSeq]
  | succ n ih =>
      intro i h
      have h0 : fails i = false := by simpa using h 0 n.succ_pos
      have hrec := ih (i + 1) fun j hj => by
        have h2 : i + 1 + j = i + (j + 1) := by omega
        rw [h2]
        exact h (j + 1) (Nat.succ_lt_succ hj)
      simp only [loopSeq, h0, Bool.false_eq_true, if_false, hrec,
        List.range_succ_eq_map, List.map_cons, List.map_map, Nat.add_zero,
        List.cons_append]
      refine congrArg₂ List.cons rfl (congrArg₂ (· ++ ·) ?_ rfl)
      refine List.map_congr_left fun a _ => ?_
      simp [Function.comp, Nat.add_assoc, Nat.add_comm 1 a]

theorem mem_loopSeq (mk : Nat → Ev) (fails : Nat → Bool) (ab : Ev) (rest : List Ev) :
    ∀ (n i : Nat) (x : Ev), x ∈ loopSeq mk fails ab rest i n →
      (∃ j, x = mk j) ∨ x = ab ∨ x ∈ rest := by
  intro n
  induction n with
  | zero => intro i x hx; right; right; simpa [loopSeq] using hx
  | succ n ih =>
      intro i x hx
      rw [loopSeq] at hx
      by_cases hf : fails i = true
      · rw [if_pos hf] at hx
        rcases List.mem_cons.mp hx with h | h
        · exact Or.inl ⟨i, h⟩
        rcases List.mem_cons.mp h with h | h
        · exact Or.inr (Or.inl h)
        · exact absurd h (List.not_mem_nil x)
      · rw [if_neg hf] at hx
        rcases List.mem_cons.mp hx with h | h
        · exact Or.inl ⟨i, h⟩
        · exact ih _ _ h

theorem mem_allocSeg (e : Env) (x : Ev) (hx : x ∈ allocSeg e) :
    x = Ev.allocMmap ∨ x = Ev.allocMalloc ∨ x = Ev.memsetBuf := by
  unfold allocSeg at hx
  by_cases hm : e.mmapFails <;> simp [hm] at hx <;> tauto

theorem mem_tpnSeg (c : Config) (x : Ev) (hx : x ∈ tpnSeg c) : x = Ev.computeTpn := by
  unfold tpnSeg at hx
  by_cases ht : c.ticksperns = 0 <;> simp [ht] at hx
  exact hx

theorem mem_measureSeq (c : Config) (e : Env) (x : Ev) (hx : x ∈ measureSeq c e) :
    x = Ev.threadInit ∨ x = Ev.abortThreadInit ∨ x = Ev.allocThreadArray ∨
    x = Ev.recordStart ∨ (∃ j, x = Ev.createThread j) ∨ x = Ev.abortCreate ∨
    x = Ev.setHounds ∨ (∃ j, x = Ev.joinThread j) ∨ x = Ev.abortJoin ∨
    x = Ev.recordEnd ∨ x = Ev.callCore ∨ x = Ev.reportOut := by
  unfold measureSeq at hx
  by_cases ht : c.use_threads
  · simp only [ht, if_true, List.mem_cons] at hx
    rcases hx with h | hx
    · tauto
    by_cases hti : e.threadInitFails
    · simp [hti] at hx; tauto
    · simp only [hti, Bool.false_eq_true, if_false, List.mem_cons] at hx
      rcases hx with h | h | hx
      · tauto
      · tauto
      rcases mem_loopSeq _ _ _ _ _ _ _ hx with h | h | h
      · tauto
      · tauto
      rcases List.mem_cons.mp h with h | h
      · tauto
      rcases mem_loopSeq _ _ _ _ _ _ _ h with h | h | h
      · tauto
      · tauto
      · simp at h; tauto
  · simp only [ht, Bool.false_eq_true, if_false] at hx
    simp at hx; tauto

theorem mainTrace_noAbort (c : Config) (e : Env)
    (hA : ¬(e.mmapFails = true ∧ e.mallocFails = true))
    (hS : ¬(c.use_stdout = true ∧ 1 < c.numthreads)) :
    mainTrace c e = allocSeg e ++ tpnSeg c ++ measureSeq c e := by
  unfold mainTrace
  rw [if_neg hA, if_neg hS, List.append_assoc]

theorem mainTrace_stdoutFatal (c : Config) (e : Env)
    (hA : ¬(e.mmapFails = true ∧ e.mallocFails = true))
    (hS : c.use_stdout = true ∧ 1 < c.numthreads) :
    mainTrace c e = allocSeg e ++ [Ev.fatalStdout] := by
  unfold mainTrace
  rw [if_neg hA, if_pos hS]

theorem measureSeq_seq (c : Config) (e : Env) (h : c.use_threads = false) :
    measureSeq c e =
      [Ev.setHounds, Ev.recordStart, Ev.callCore, Ev.recordEnd, Ev.reportOut] := by
  unfold measureSeq
  rw [h]
  simp

theorem measureSeq_thr_createOk (c : Config) (e : Env) (h : c.use_threads = true)
    (hTI : e.threadInitFails = false)
    (hCr : ∀ i, i < c.numthreads.toNat → e.createFails i = false) :
    measureSeq c e =
      [Ev.threadInit, Ev.allocThreadArray, Ev.recordStart] ++
        ((List.range c.numthreads.toNat).map Ev.createThread) ++
        Ev.setHounds ::
          loopSeq Ev.joinThread e.joinFails Ev.abortJoin
            [Ev.recordEnd, Ev.reportOut] 0 c.numthreads.toNat := by
  unfold measureSeq
  rw [h, hTI]
  rw [loopSeq_ok _ _ _ _ _ 0 fun j hj => by simpa using hCr j hj]
  simp

theorem measureSeq_thr_allOk (c : Config) (e : Env) (h : c.use_threads = true)
    (hTI : e.threadInitFails = false)
    (hCr : ∀ i, i < c.numthreads.toNat → e.createFails i = false)
    (hJn : ∀ i, i < c.numthreads.toNat → e.joinFails i = false) :
    measureSeq c e =
      [Ev.threadInit, Ev.allocThreadArray, Ev.recordStart] ++
        ((List.range c.numthreads.toNat).map Ev.createThread) ++
        [Ev.setHounds] ++
        ((List.range c.numthreads.toNat).map Ev.joinThread) ++
        [Ev.recordEnd, Ev.reportOut] := by
  rw [measureSeq_thr_createOk c e h hTI hCr]
  rw [loopSeq_ok _ _ _ _ _ 0 fun j hj => by simpa using hJn j hj]
  simp

theorem writesHounds_append (a b : List Ev) :
    writesHounds (a ++ b) = writesHounds a ++ writesHounds b := by
  unfold writesHounds
  exact List.filterMap_append _ _ _

theorem writesHounds_eq_nil (l : List Ev) (h : Ev.setHounds ∉ l) :
    writesHounds l = [] := by
  refine List.filterMap_eq_nil_iff.mpr fun a ha => ?_
  cases a <;> first | rfl | exact absurd ha h

theorem not_mem_allocSeg (e : Env) (x : Ev)
    (h1 : x ≠ Ev.allocMmap) (h2 : x ≠ Ev.allocMalloc) (h3 : x ≠ Ev.memsetBuf) :
    x ∉ allocSeg e := by
  intro hx
  rcases mem_allocSeg e x hx with h | h | h
  · exact h1 h
  · exact h2 h
  · exact h3 h

theorem not_mem_tpnSeg (c : Config) (x : Ev) (h : x ≠ Ev.computeTpn) :
    x ∉ tpnSeg c := fun hx => h (mem_tpnSeg c x hx)

theorem abortAlloc_not_mem_measureSeq (c : Config) (e : Env) :
    Ev.abortAlloc ∉ measureSeq c e := by
  intro hx
  rcases mem_measureSeq c e _ hx with h | h | h | h | ⟨j, h⟩ | h | h | ⟨j, h⟩ | h | h | h | h <;>
    simp_all

theorem computeTpn_not_mem_measureSeq (c : Config) (e : Env) :
    Ev.computeTpn ∉ measureSeq c e := by
  intro hx
  rcases mem_measureSeq c e _ hx with h | h | h | h | ⟨j, h⟩ | h | h | ⟨j, h⟩ | h | h | h | h <;>
    simp_all

theorem setHounds_not_mem_joinLoop (jf : Nat → Bool) (i n : Nat) :
    Ev.setHounds ∉ loopSeq Ev.joinThread jf Ev.abortJoin [Ev.recordEnd, Ev.reportOut] i n := by
  intro hx
  rcases mem_loopSeq _ _ _ _ _ _ _ hx with ⟨j, h⟩ | h | h <;> simp_all

theorem createThread_not_mem_joinLoop (jf : Nat → Bool) (k i n : Nat) :
    Ev.createThread k ∉
      loopSeq Ev.joinThread jf Ev.abortJoin [Ev.recordEnd, Ev.reportOut] i n := by
  intro hx
  rcases mem_loopSeq _ _ _ _ _ _ _ hx with ⟨j, h⟩ | h | h <;> simp_all

/-- C6: for every requested per-thread sample count, the effective count is
`min` of the request and `MAX_SAMPLES`, and the sample-buffer allocation size
is computed from that capped value (the cap at lines 136-141 precedes the
`samples_size` computation at line 143). -/
theorem c6_cap_before_alloc (c : Config) (n : Nat) :
    capSamples n = min n MAX_SAMPLES ∧
    allocSize c = 8 * min c.numsamples MAX_SAMPLES * 2 * toULong c.numthreads % 2 ^ 64 := by
  have h : ∀ m : Nat, capSamples m = min m MAX_SAMPLES := by
    intro m
    unfold capSamples
    split <;> omega
  exact ⟨h n, by unfold allocSize; rw [h c.numsamples]⟩

/-- C9: a negative `-n` argument is converted to the `unsigned long`
`numsamples` modulo `2 ^ 64`, which exceeds `MAX_SAMPLES`, so the sanity cap
sets the effective per-thread sample count to exactly `MAX_SAMPLES`. -/
theorem c9_negative_count (c : Config) (s : String)
    (h1 : atoi s < 0) (h2 : -(2 ^ 63) ≤ atoi s) :
    applyOpt c (Opt.n s) = some { c with numsamples := toULong (atoi s) } ∧
    capSamples (toULong (atoi s)) = MAX_SAMPLES := by
  refine ⟨rfl, ?_⟩
  have hbig : MAX_SAMPLES < toULong (atoi s) := by
    unfold toULong MAX_SAMPLES
    have e1 : (2 : Int) ^ 64 = 18446744073709551616 := by norm_num
    have e2 : -(2 ^ 63 : Int) = -9223372036854775808 := by norm_num
    rw [e2] at h2
    rw [e1]
    omega
  unfold capSamples
  rw [if_pos hbig]

theorem c9_witness :
    atoi "-5" < 0 ∧ -(2 ^ 63) ≤ atoi "-5" ∧
    capSamples (toULong (atoi "-5")) = MAX_SAMPLES :=
  ⟨by decide, by decide, (c9_negative_count defaultConfig "-5" (by decide) (by decide)).2⟩

/-- C10: when the `-f` argument parses to 0 (`atoi` yields 0 for the string
"0" and for any non-numeric string), the `interval` computation
`(unsigned long long)(1e9 / atoi(optarg))` is reached with a zero divisor and
no prior validation: the option handler stores the erroneous `divZero`
outcome directly. -/
theorem c10_freq_zero_division (c : Config) (s : String) (h : atoi s = 0) :
    applyOpt c (Opt.f s) = some { c with interval := IntervalVal.divZero } := by
  have hd : applyOpt c (Opt.f s) = some { c with interval := intervalOfFreq (atoi s) } := rfl
  rw [hd, h]
  rfl

theorem c10_witness :
    atoi "0" = 0 ∧ atoi "abc" = 0 ∧
    applyOpt defaultConfig (Opt.f "0") =
      some { defaultConfig with interval := IntervalVal.divZero } :=
  ⟨by decide, by decide, c10_freq_zero_division defaultConfig "0" (by decide)⟩

/-- C8: a failed `mmap` alone does not abort the run — the `malloc` fallback
is attempted, and the run aborts (failed `assert`) exactly when both fail; in
every surviving path the buffer is zeroed by `memset` during the allocation
segment, before any thread creation or direct core call. -/
theorem c8_alloc_fallback (c : Config) (e : Env) :
    (Ev.abortAlloc ∈ mainTrace c e ↔ e.mmapFails = true ∧ e.mallocFails = true) ∧
    (e.mmapFails = true → Ev.allocMalloc ∈ mainTrace c e) ∧
    (¬(e.mmapFails = true ∧ e.mallocFails = true) →
      ∃ s, mainTrace c e = allocSeg e ++ s ∧
        Ev.memsetBuf ∈ allocSeg e ∧
        (∀ i, Ev.createThread i ∉ allocSeg e) ∧
        Ev.callCore ∉ allocSeg e) := by
  have hmem : Ev.memsetBuf ∈ allocSeg e := by
    unfold allocSeg
    by_cases hm : e.mmapFails = true <;> simp [hm]
  refine ⟨?_, ?_, ?_⟩
  · constructor
    · intro hx
      by_cases hb : e.mmapFails = true ∧ e.mallocFails = true
      · exact hb
      exfalso
      unfold mainTrace at hx
      rw [if_neg hb] at hx
      rcases List.mem_append.mp hx with h | h
      · exact not_mem_allocSeg e _ (by simp) (by simp) (by simp) h
      by_cases hs : c.use_stdout = true ∧ 1 < c.numthreads
      · rw [if_pos hs] at h
        simp at h
      · rw [if_neg hs] at h
        rcases List.mem_append.mp h with h | h
        · exact not_mem_tpnSeg c _ (by simp) h
        · exact abortAlloc_not_mem_measureSeq c e h
    · intro hb
      unfold mainTrace
      rw [if_pos hb]
      simp
  · intro hm
    unfold mainTrace
    by_cases hb : e.mmapFails = true ∧ e.mallocFails = true
    · rw [if_pos hb]
      simp
    · rw [if_neg hb]
      refine List.mem_append.mpr (Or.inl ?_)
      unfold allocSeg
      simp [hm]
  · intro hb
    refine ⟨(if c.use_stdout = true ∧ 1 < c.numthreads then [Ev.fatalStdout]
        else tpnSeg c ++ measureSeq c e), ?_, hmem, ?_, ?_⟩
    · unfold mainTrace
      rw [if_neg hb]
    · intro i
      exact not_mem_allocSeg e _ (by simp) (by simp) (by simp)
    · exact not_mem_allocSeg e _ (by simp) (by simp) (by simp)

theorem c8_witness :
    envMmapFail.mmapFails = true ∧
    Ev.allocMalloc ∈ mainTrace defaultConfig envMmapFail ∧
    (Ev.abortAlloc ∈ mainTrace defaultConfig envMmapFail ↔
      envMmapFail.mmapFails = true ∧ envMmapFail.mallocFails = true) :=
  ⟨rfl, (c8_alloc_fallback defaultConfig envMmapFail).2.1 rfl,
    (c8_alloc_fallback defaultConfig envMmapFail).1⟩

/-- C2 counterexample: with `-s -t 2` (stdout output, two threads) the run is
rejected, but the sample buffer has already been allocated (and zeroed): the
`mmap` allocation event strictly precedes the fatal exit in the trace, so the
rejection does not happen "before any sample-buffer allocation". -/
theorem c2_counterexample :
    Ev.fatalStdout ∈ mainTrace (parseOptsD [Opt.s, Opt.t "2"]) env0 ∧
    beforeB (mainTrace (parseOptsD [Opt.s, Opt.t "2"]) env0) Ev.allocMmap Ev.fatalStdout = true ∧
    beforeB (mainTrace (parseOptsD [Opt.s, Opt.t "2"]) env0) Ev.fatalStdout Ev.allocMmap = false := by
  decide

/-- C2 amended: requesting single-stream output with more than one thread is
rejected with a fatal error after the sample buffer has been allocated and
zeroed, but before calibration, before the start signal, before any thread
creation, and before any core call. -/
theorem c2_stdout_rejection (c : Config) (e : Env)
    (h : c.use_stdout = true ∧ 1 < c.numthreads)
    (hA : ¬(e.mmapFails = true ∧ e.mallocFails = true)) :
    mainTrace c e = allocSeg e ++ [Ev.fatalStdout] ∧
    Ev.memsetBuf ∈ allocSeg e ∧
    Ev.computeTpn ∉ mainTrace c e ∧
    Ev.setHounds ∉ mainTrace c e ∧
    (∀ i, Ev.createThread i ∉ mainTrace c e) ∧
    Ev.callCore ∉ mainTrace c e := by
  have htr := mainTrace_stdoutFatal c e hA h
  have hnm : ∀ x : Ev, x ≠ Ev.allocMmap → x ≠ Ev.allocMalloc → x ≠ Ev.memsetBuf →
      x ≠ Ev.fatalStdout → x ∉ mainTrace c e := by
    intro x h1 h2 h3 h4 hx
    rw [htr] at hx
    rcases List.mem_append.mp hx with hm | hm
    · exact not_mem_allocSeg e x h1 h2 h3 hm
    · rw [List.mem_singleton] at hm
      exact h4 hm
  refine ⟨htr, ?_, ?_, ?_, ?_, ?_⟩
  · unfold allocSeg
    by_cases hm : e.mmapFails = true <;> simp [hm]
  · exact hnm _ (by simp) (by simp) (by simp) (by simp)
  · exact hnm _ (by simp) (by simp) (by simp) (by simp)
  · intro i
    exact hnm _ (by simp) (by simp) (by simp) (by simp)
  · exact hnm _ (by simp) (by simp) (by simp) (by simp)

theorem c2_witness :
    ((parseOptsD [Opt.s, Opt.t "2"]).use_stdout = true ∧
      1 < (parseOptsD [Opt.s, Opt.t "2"]).numthreads) ∧
    mainTrace (parseOptsD [Opt.s, Opt.t "2"]) env0 = allocSeg env0 ++ [Ev.fatalStdout] :=
  ⟨by decide, (c2_stdout_rejection (parseOptsD [Opt.s, Opt.t "2"]) env0 (by decide) (by decide)).1⟩

/-- C3 counterexample: with `-t 1` the run is configured with exactly one
worker (`numthreads = 1`), yet a thread is created (the `use_threads` flag,
not `numthreads`, selects the branch) and the core is not called directly. -/
theorem c3_counterexample :
    (parseOptsD [Opt.t "1"]).numthreads = 1 ∧
    Ev.createThread 0 ∈ mainTrace (parseOptsD [Opt.t "1"]) env0 ∧
    Ev.callCore ∉ mainTrace (parseOptsD [Opt.t "1"]) env0 := by
  decide

/-- C3 amended: the sequential path is selected when the `-t` option is not
supplied (`use_threads` unset; `numthreads` keeps its default 1): then no
thread is spawned, no thread-related primitive is invoked, and `main` calls
`ftq_core(0)` directly.  Supplying `-t 1` yields `numthreads = 1` but still
spawns one thread. -/
theorem c3_sequential_direct_call (c : Config) (e : Env)
    (h : c.use_threads = false)
    (hA : ¬(e.mmapFails = true ∧ e.mallocFails = true))
    (hS : ¬(c.use_stdout = true ∧ 1 < c.numthreads)) :
    mainTrace c e = allocSeg e ++ tpnSeg c ++
      [Ev.setHounds, Ev.recordStart, Ev.callCore, Ev.recordEnd, Ev.reportOut] ∧
    Ev.callCore ∈ mainTrace c e ∧
    Ev.threadInit ∉ mainTrace c e ∧
    (∀ i, Ev.createThread i ∉ mainTrace c e) ∧
    (∀ i, Ev.joinThread i ∉ mainTrace c e) := by
  have htr : mainTrace c e = allocSeg e ++ tpnSeg c ++
      [Ev.setHounds, Ev.recordStart, Ev.callCore, Ev.recordEnd, Ev.reportOut] := by
    rw [mainTrace_noAbort c e hA hS, measureSeq_seq c e h]
  have hnm : ∀ x : Ev, x ≠ Ev.allocMmap → x ≠ Ev.allocMalloc → x ≠ Ev.memsetBuf →
      x ≠ Ev.computeTpn → x ≠ Ev.setHounds → x ≠ Ev.recordStart → x ≠ Ev.callCore →
      x ≠ Ev.recordEnd → x ≠ Ev.reportOut → x ∉ mainTrace c e := by
    intro x h1 h2 h3 h4 h5 h6 h7 h8 h9 hx
    rw [htr] at hx
    rcases List.mem_append.mp hx with hm | hm
    · rcases List.mem_append.mp hm with hm | hm
      · exact not_mem_allocSeg e x h1 h2 h3 hm
      · exact not_mem_tpnSeg c x h4 hm
    · simp only [List.mem_cons, List.not_mem_nil, or_false] at hm
      rcases hm with hm | hm | hm | hm | hm
      · exact h5 hm
      · exact h6 hm
      · exact h7 hm
      · exact h8 hm
      · exact h9 hm
  refine ⟨htr, ?_, ?_, ?_, ?_⟩
  · rw [htr]
    simp
  · exact hnm _ (by simp) (by simp) (by simp) (by simp) (by simp) (by simp) (by simp)
      (by simp) (by simp)
  · intro i
    exact hnm _ (by simp) (by simp) (by simp) (by simp) (by simp) (by simp) (by simp)
      (by simp) (by simp)
  · intro i
    exact hnm _ (by simp) (by simp) (by simp) (by simp) (by simp) (by simp) (by simp)
      (by simp) (by simp)

theorem c3_witness :
    defaultConfig.use_threads = false ∧
    mainTrace defaultConfig env0 = allocSeg env0 ++ tpnSeg defaultConfig ++
      [Ev.setHounds, Ev.recordStart, Ev.callCore, Ev.recordEnd, Ev.reportOut] :=
  ⟨rfl, (c3_sequential_direct_call defaultConfig env0 rfl (by decide) (by decide)).1⟩

/-- C4 counterexample: in the sequential path (default configuration, no
`-t`), `hounds = 1` is executed before `start = nsec(); cyclestart = getticks()`,
so the start timestamp is not recorded before the start signal is released;
and in the threaded path (`-t 2`) thread creation lies between the recording
of the start timestamp and the signal release, so the recording is not
"immediately before" the release there either. -/
theorem c4_counterexample :
    beforeB (mainTrace defaultConfig env0) Ev.setHounds Ev.recordStart = true ∧
    beforeB (mainTrace defaultConfig env0) Ev.recordStart Ev.setHounds = false ∧
    beforeB (mainTrace (parseOptsD [Opt.t "2"]) env0) Ev.recordStart (Ev.createThread 0) = true ∧
    beforeB (mainTrace (parseOptsD [Opt.t "2"]) env0) (Ev.createThread 0) Ev.setHounds = true := by
  decide

/-- C4 amended: in the threaded path the coordinator records the global start
timestamp and cycle-count before creating the threads and before releasing
the start signal (thread creation lies in between), and records the end pair
only after all joins; in the sequential path the start signal is set first,
then the start pair is recorded, the core runs, and the end pair is recorded
after it returns. -/
theorem c4_start_end_ordering (c : Config) (e : Env)
    (hA : ¬(e.mmapFails = true ∧ e.mallocFails = true))
    (hS : ¬(c.use_stdout = true ∧ 1 < c.numthreads))
    (hTI : e.threadInitFails = false)
    (hCr : ∀ i, i < c.numthreads.toNat → e.createFails i = false)
    (hJn : ∀ i, i < c.numthreads.toNat → e.joinFails i = false) :
    (c.use_threads = true →
      mainTrace c e = allocSeg e ++ tpnSeg c ++
        [Ev.threadInit, Ev.allocThreadArray, Ev.recordStart] ++
        ((List.range c.numthreads.toNat).map Ev.createThread) ++ [Ev.setHounds] ++
        ((List.range c.numthreads.toNat).map Ev.joinThread) ++
        [Ev.recordEnd, Ev.reportOut]) ∧
    (c.use_threads = false →
      mainTrace c e = allocSeg e ++ tpnSeg c ++
        [Ev.setHounds, Ev.recordStart, Ev.callCore, Ev.recordEnd, Ev.reportOut]) := by
  constructor
  · intro h
    rw [mainTrace_noAbort c e hA hS, measureSeq_thr_allOk c e h hTI hCr hJn]
    simp [List.append_assoc]
  · intro h
    rw [mainTrace_noAbort c e hA hS, measureSeq_seq c e h]

theorem c4_witness :
    (parseOptsD [Opt.t "2"]).use_threads = true ∧
    mainTrace (parseOptsD [Opt.t "2"]) env0 =
      allocSeg env0 ++ tpnSeg (parseOptsD [Opt.t "2"]) ++
        [Ev.threadInit, Ev.allocThreadArray, Ev.recordStart] ++
        ((List.range (parseOptsD [Opt.t "2"]).numthreads.toNat).map Ev.createThread) ++
        [Ev.setHounds] ++
        ((List.range (parseOptsD [Opt.t "2"]).numthreads.toNat).map Ev.joinThread) ++
        [Ev.recordEnd, Ev.reportOut] :=
  ⟨by decide,
    (c4_start_end_ordering (parseOptsD [Opt.t "2"]) env0 (by decide) (by decide) rfl
      (fun _ _ => rfl) (fun _ _ => rfl)).1 (by decide)⟩

/-- C5: the global start signal `hounds` starts false, is written exactly
once per completed launch — with the value true — and the write happens after
every thread-creation event; no later event ever writes it again (the
sampling core, modelled from the spec, only spin-reads it). -/
theorem c5_hounds_write_once (c : Config) (e : Env)
    (hA : ¬(e.mmapFails = true ∧ e.mallocFails = true))
    (hS : ¬(c.use_stdout = true ∧ 1 < c.numthreads))
    (hTI : e.threadInitFails = false)
    (hCr : ∀ i, i < c.numthreads.toNat → e.createFails i = false) :
    houndsInit = false ∧
    writesHounds (mainTrace c e) = [true] ∧
    ∃ p s, mainTrace c e = p ++ Ev.setHounds :: s ∧
      (c.use_threads = true →
        ∀ i, i < c.numthreads.toNat → Ev.createThread i ∈ p) ∧
      (∀ i, Ev.createThread i ∉ s) := by
  have hwAlloc : writesHounds (allocSeg e) = [] :=
    writesHounds_eq_nil _ (not_mem_allocSeg e _ (by simp) (by simp) (by simp))
  have hwTpn : writesHounds (tpnSeg c) = [] :=
    writesHounds_eq_nil _ (not_mem_tpnSeg c _ (by simp))
  by_cases h : c.use_threads = true
  · have htr : mainTrace c e = allocSeg e ++ tpnSeg c ++
        ([Ev.threadInit, Ev.allocThreadArray, Ev.recordStart] ++
          ((List.range c.numthreads.toNat).map Ev.createThread) ++
          Ev.setHounds ::
            loopSeq Ev.joinThread e.joinFails Ev.abortJoin
              [Ev.recordEnd, Ev.reportOut] 0 c.numthreads.toNat) := by
      rw [mainTrace_noAbort c e hA hS, measureSeq_thr_createOk c e h hTI hCr]
    refine ⟨rfl, ?_, ?_⟩
    · rw [htr]
      rw [writesHounds_append, writesHounds_append, writesHounds_append,
        writesHounds_append, hwAlloc, hwTpn]
      have h1 : writesHounds [Ev.threadInit, Ev.allocThreadArray, Ev.recordStart] = [] := by
        rfl
      have h2 : writesHounds ((List.range c.numthreads.toNat).map Ev.createThread) = [] := by
        refine writesHounds_eq_nil _ ?_
        simp [List.mem_map]
      have h3 : writesHounds
          (Ev.setHounds ::
            loopSeq Ev.joinThread e.joinFails Ev.abortJoin
              [Ev.recordEnd, Ev.reportOut] 0 c.numthreads.toNat) =
          true :: writesHounds
            (loopSeq Ev.joinThread e.joinFails Ev.abortJoin
              [Ev.recordEnd, Ev.reportOut] 0 c.numthreads.toNat) := by
        rfl
      rw [h1, h2, h3,
        writesHounds_eq_nil _ (setHounds_not_mem_joinLoop e.joinFails 0 c.numthreads.toNat)]
      rfl
    · refine ⟨allocSeg e ++ tpnSeg c ++
        ([Ev.threadInit, Ev.allocThreadArray, Ev.recordStart] ++
          ((List.range c.numthreads.toNat).map Ev.createThread)),
        loopSeq Ev.joinThread e.joinFails Ev.abortJoin
          [Ev.recordEnd, Ev.reportOut] 0 c.numthreads.toNat, ?_, ?_, ?_⟩
      · rw [htr]
        simp [List.append_assoc]
      · intro _ i hi
        refine List.mem_append.mpr (Or.inr ?_)
        refine List.mem_append.mpr (Or.inr ?_)
        exact List.mem_map.mpr ⟨i, List.mem_range.mpr hi, rfl⟩
      · intro i
        exact createThread_not_mem_joinLoop e.joinFails i 0 c.numthreads.toNat
  · have hf : c.use_threads = false := by
      cases hb : c.use_threads
      · rfl
      · exact absurd hb h
    have htr := (mainTrace_noAbort c e hA hS).trans
      (by rw [measureSeq_seq c e hf])
    refine ⟨rfl, ?_, ?_⟩
    · rw [htr]
      rw [writesHounds_append, writesHounds_append, hwAlloc, hwTpn]
      rfl
    · refine ⟨allocSeg e ++ tpnSeg c,
        [Ev.recordStart, Ev.callCore, Ev.recordEnd, Ev.reportOut], ?_, ?_, ?_⟩
      · rw [htr]
      · intro hcontra
        exact absurd hcontra (by rw [hf]; simp)
      · intro i
        simp

theorem c5_witness :
    houndsInit = false ∧
    writesHounds (mainTrace (parseOptsD [Opt.t "2"]) env0) = [true] ∧
    ∃ p s, mainTrace (parseOptsD [Opt.t "2"]) env0 = p ++ Ev.setHounds :: s ∧
      ((parseOptsD [Opt.t "2"]).use_threads = true →
        ∀ i, i < (parseOptsD [Opt.t "2"]).numthreads.toNat → Ev.createThread i ∈ p) ∧
      (∀ i, Ev.createThread i ∉ s) :=
  c5_hounds_write_once (parseOptsD [Opt.t "2"]) env0 (by decide) (by decide) rfl
    (fun _ _ => rfl)

/-- C7 counterexample: the value `0` supplied explicitly as `-T 0` parses
successfully and is stored, yet the calibration routine still runs — the code
triggers calibration on `ticksperns == 0.0`, not on whether an explicit value
was supplied. -/
theorem c7_counterexample :
    sscanfLg "0" = some 0 ∧
    (parseOptsD [Opt.T "0"]).ticksperns = 0 ∧
    Ev.computeTpn ∈ mainTrace (parseOptsD [Opt.T "0"]) env0 := by
  decide

/-- C7 amended: the calibration routine runs exactly when `ticksperns` equals
0.0 after parsing (not supplied, supplied as 0, or supplied unparseably);
when it runs it runs once, after allocation and before the measurement phase
(so before any thread creation or core call); a nonzero parsed value is used
unchanged for the whole run. -/
theorem c7_tpn_computed_iff_zero (c : Config) (e : Env)
    (hA : ¬(e.mmapFails = true ∧ e.mallocFails = true))
    (hS : ¬(c.use_stdout = true ∧ 1 < c.numthreads)) :
    (Ev.computeTpn ∈ mainTrace c e ↔ c.ticksperns = 0) ∧
    (c.ticksperns = 0 → tpnSeg c = [Ev.computeTpn]) ∧
    (∃ s, mainTrace c e = allocSeg e ++ tpnSeg c ++ s ∧
      Ev.computeTpn ∉ allocSeg e ∧ Ev.computeTpn ∉ s ∧
      (∀ i, Ev.createThread i ∉ allocSeg e) ∧
      (∀ i, Ev.createThread i ∉ tpnSeg c) ∧
      Ev.callCore ∉ allocSeg e ∧ Ev.callCore ∉ tpnSeg c) ∧
    (c.ticksperns ≠ 0 → finalTpn c e = c.ticksperns) ∧
    (c.ticksperns = 0 → finalTpn c e = e.computedTpn) := by
  have htr := mainTrace_noAbort c e hA hS
  refine ⟨⟨?_, ?_⟩, ?_, ⟨measureSeq c e, htr, ?_, ?_, ?_, ?_, ?_, ?_⟩, ?_, ?_⟩
  · intro hx
    by_cases h0 : c.ticksperns = 0
    · exact h0
    exfalso
    rw [htr] at hx
    have ht : tpnSeg c = [] := by
      unfold tpnSeg
      rw [if_neg h0]
    rcases List.mem_append.mp hx with hm | hm
    · rcases List.mem_append.mp hm with hm2 | hm2
      · exact not_mem_allocSeg e _ (by simp) (by simp) (by simp) hm2
      · rw [ht] at hm2
        simp at hm2
    · exact computeTpn_not_mem_measureSeq c e hm
  · intro h0
    rw [htr]
    refine List.mem_append.mpr (Or.inl (List.mem_append.mpr (Or.inr ?_)))
    unfold tpnSeg
    rw [if_pos h0]
    simp
  · intro h0
    unfold tpnSeg
    rw [if_pos h0]
  · exact not_mem_allocSeg e _ (by simp) (by simp) (by simp)
  · exact computeTpn_not_mem_measureSeq c e
  · intro i
    exact not_mem_allocSeg e _ (by simp) (by simp) (by simp)
  · intro i
    exact not_mem_tpnSeg c _ (by simp)
  · exact not_mem_allocSeg e _ (by simp) (by simp) (by simp)
  · exact not_mem_tpnSeg c _ (by simp)
  · intro h0
    unfold finalTpn
    rw [if_neg h0]
  · intro h0
    unfold finalTpn
    rw [if_pos h0]

theorem c7_witness :
    (Ev.computeTpn ∈ mainTrace defaultConfig env0 ↔ defaultConfig.ticksperns = 0) ∧
    (defaultConfig.ticksperns = 0 → finalTpn defaultConfig env0 = env0.computedTpn) :=
  ⟨(c7_tpn_computed_iff_zero defaultConfig env0 (by decide) (by decide)).1,
    (c7_tpn_computed_iff_zero defaultConfig env0 (by decide) (by decide)).2.2.2.2⟩

/-- C1 counterexample: with calibration factor `ticksperns = 2` but measured
run totals of 1000 ns over 100 cycles, the reporter multiplies timestamp
deltas by `nspercycle = 10` (computed from the run totals at line 218), not
by the `1/2` nanoseconds-per-tick the calibration factor would give: on a
concrete two-sample buffer the emitted lines differ, so the first output
integer is not derived from the calibration factor `ticksperns`. -/
theorem c1_counterexample :
    nspercycle times0 = 10 ∧
    reportLines (nspercycle times0) samples0 2 0 = [(0, 3), (400, 7)] ∧
    reportLinesSpecTpn 2 samples0 2 0 = [(0, 3), (20, 7)] ∧
    reportLines (nspercycle times0) samples0 2 0 ≠ reportLinesSpecTpn 2 samples0 2 0 := by
  have h10 : nspercycle times0 = 10 := by
    unfold nspercycle times0
    norm_num
  have hr2 : List.range 2 = [0, 1] := by decide
  have u1 : ullSub (samples0 (0 * 2 * 2 + 0 * 2)) (samples0 (2 * 0 * 2)) = 0 := by decide
  have u2 : ullSub (samples0 (0 * 2 * 2 + 1 * 2)) (samples0 (2 * 0 * 2)) = 40 := by decide
  have hsrc : reportLines 10 samples0 2 0 = [(0, 3), (400, 7)] := by
    unfold reportLines
    rw [hr2]
    simp only [List.map_cons, List.map_nil, u1, u2]
    norm_num
    exact ⟨by decide, by decide, by decide⟩
  have hspec : reportLinesSpecTpn 2 samples0 2 0 = [(0, 3), (20, 7)] := by
    unfold reportLinesSpecTpn
    rw [hr2]
    simp only [List.map_cons, List.map_nil, u1, u2]
    norm_num
    exact ⟨by decide, by decide, by decide⟩
  refine ⟨h10, by rw [h10]; exact hsrc, hspec, ?_⟩
  rw [h10, hsrc, hspec]
  decide

/-- C1 amended: each emitted line for thread `j` is the pair of the truncated
product `nspercycle * (timestamp - first-timestamp-of-thread-j's-slice)`
(unsigned 64-bit subtraction) and the work-count, where the multiplier
`nspercycle` is the run's total elapsed nanoseconds divided by its total
elapsed cycles — not a value derived from `ticksperns`, which is only printed
in the header; the stdout loop emits exactly thread 0's lines. -/
theorem c1_report_line_format (npc : ℚ) (samples : Nat → Nat) (n j i : Nat)
    (h : i < n) (r : RunTimes) (hr : r.cycleend ≠ r.cyclestart) :
    (reportLines npc samples n j)[i]? =
      some (castToTicks (npc * (ullSub (samples (j * n * 2 + i * 2))
          (samples (n * j * 2)) : ℚ)),
        samples (j * n * 2 + i * 2 + 1)) ∧
    reportStdoutLines npc samples n = reportLines npc samples n 0 ∧
    nspercycle r * ((r.cycleend - r.cyclestart : Int) : ℚ) =
      ((r.endT - r.start : Int) : ℚ) := by
  refine ⟨?_, ?_, ?_⟩
  · unfold reportLines
    simp [List.getElem?_map, List.getElem?_range, h]
  · unfold reportStdoutLines reportLines
    refine List.map_congr_left fun a _ => ?_
    norm_num
  · unfold nspercycle
    rw [div_mul_cancel₀]
    intro hc
    apply hr
    have hz : (r.cycleend - r.cyclestart : Int) = 0 := by exact_mod_cast hc
    omega

theorem c1_witness :
    0 < 2 ∧ times0.cycleend ≠ times0.cyclestart ∧
    reportStdoutLines 10 samples0 2 = reportLines 10 samples0 2 0 :=
  ⟨by decide, by decide,
    (c1_report_line_format 10 samples0 2 0 0 (by decide) times0 (by decide)).2.1⟩
